import Mathlib

/-!
Shallow embedding of the photo-mgmt content-addressable reconciliation engine.

The Python sources embedded here are `rename.py` (path planning, collision
resolution, move execution, confirmation gate), `update.py` (rescan hashing and
hash-based record reconciliation) and `scan_image.py` (scan pipeline write
stage).  Database tables are modelled as Lean lists of rows, SQL statements as
functions on those lists, and Python exceptions as explicit error values.
-/

namespace PhotoMgmt

/-- Python exception kinds raised by the embedded code paths. -/
inductive PyErr where
  | valueError
  | programmingError
  | typeError
  deriving DecidableEq, Repr

/-- Index of the last occurrence of `c` in `s`, or `-1` when absent
(Python `str.rfind`). -/
def strRfind (s : String) (c : Char) : Int :=
  match s.data.reverse.findIdx? (fun x => x == c) with
  | none => -1
  | some i => (s.data.length : Int) - 1 - (i : Int)

/-- Embedding of CPython `os.path.splitext` with posix separator `/`:
split at the last dot of the basename, treating leading dots of the basename
as part of the root rather than an extension. -/
def splitext (p : String) : String × String :=
  let cs := p.data
  let sepIndex := strRfind p '/'
  let dotIndex := strRfind p '.'
  if sepIndex < dotIndex then
    let fIdx := (sepIndex + 1).toNat
    let dIdx := dotIndex.toNat
    if (List.range' fIdx (dIdx - fIdx)).any (fun i => (cs.getD i '.') != '.') then
      (String.mk (cs.take dIdx), String.mk (cs.drop dIdx))
    else
      (p, "")
  else
    (p, "")

/-- Embedding of Python `str.rjust`: left-pad with `c` up to `width`. -/
def rjust (s : String) (width : Nat) (c : Char) : String :=
  String.mk (List.replicate (width - s.length) c) ++ s

/-- Embedding of posix `os.path.basename`: the text after the last `/`. -/
def basename (p : String) : String :=
  String.mk (p.data.reverse.takeWhile (fun ch => ch != '/')).reverse

/-- Embedding of `re.sub(r'\\', '/', s)`: replace every backslash by a slash. -/
def slashify (s : String) : String :=
  String.mk (s.data.map (fun ch => if ch == '\\' then '/' else ch))

/-- Lexicographic strict order on character lists, comparing code points
(the SQLite BINARY collation used by `ORDER BY` on text columns). -/
def chLt : List Char → List Char → Bool
  | [], [] => false
  | [], _ :: _ => true
  | _ :: _, [] => false
  | a :: as, b :: bs =>
    if a.toNat < b.toNat then true
    else if b.toNat < a.toNat then false
    else chLt as bs

/-- Lexicographic strict order on strings, used for `ORDER BY old_path`. -/
def strLt (a b : String) : Bool :=
  chLt a.data b.data

theorem chLt_irrefl (l : List Char) : chLt l l = false := by
  induction l with
  | nil => rfl
  | cons a as ih => simp [chLt, ih]

theorem strLt_irrefl (s : String) : strLt s s = false :=
  chLt_irrefl s.data

theorem chLt_trans {a b c : List Char} (hab : chLt a b = true) (hbc : chLt b c = true) :
    chLt a c = true := by
  induction a generalizing b c with
  | nil =>
    cases b with
    | nil => simp [chLt] at hab
    | cons y bs =>
      cases c with
      | nil => simp [chLt] at hbc
      | cons z cs => simp [chLt]
  | cons x as ih =>
    cases b with
    | nil => simp [chLt] at hab
    | cons y bs =>
      cases c with
      | nil => simp [chLt] at hbc
      | cons z cs =>
        simp only [chLt] at hab hbc ⊢
        split at hab
        · split at hbc
          · have : x.toNat < z.toNat := by omega
            simp [this]
          · split at hbc
            · simp at hbc
            · have : x.toNat < z.toNat := by omega
              simp [this]
        · split at hab
          · simp at hab
          · split at hbc
            · have : x.toNat < z.toNat := by omega
              simp [this]
            · split at hbc
              · simp at hbc
              · have hxy : x.toNat = y.toNat := by omega
                have hyz : y.toNat = z.toNat := by omega
                have h1 : ¬ x.toNat < z.toNat := by omega
                have h2 : ¬ z.toNat < x.toNat := by omega
                simp [h1, h2, ih hab hbc]

theorem strLt_trans {a b c : String} (hab : strLt a b = true) (hbc : strLt b c = true) :
    strLt a c = true :=
  chLt_trans hab hbc

theorem char_toNat_inj {x y : Char} (h : x.toNat = y.toNat) : x = y := by
  have h2 := congrArg Char.ofNat h
  rwa [Char.ofNat_toNat, Char.ofNat_toNat] at h2

theorem chLt_total_eq {a b : List Char} (h1 : chLt a b = false) (h2 : chLt b a = false) :
    a = b := by
  induction a generalizing b with
  | nil =>
    cases b with
    | nil => rfl
    | cons y bs => simp [chLt] at h1
  | cons x as ih =>
    cases b with
    | nil => simp [chLt] at h2
    | cons y bs =>
      by_cases hxy : x.toNat < y.toNat
      · simp [chLt, hxy] at h1
      · by_cases hyx : y.toNat < x.toNat
        · simp [chLt, hyx] at h2
        · have hx : x = y := char_toNat_inj (by omega)
          subst hx
          have h1b : chLt as bs = false := by simpa [chLt, hxy] using h1
          have h2b : chLt bs as = false := by simpa [chLt, hxy] using h2
          exact congrArg (x :: ·) (ih h1b h2b)

theorem strLt_total_eq {a b : String} (h1 : strLt a b = false) (h2 : strLt b a = false) :
    a = b := by
  cases a with
  | mk da =>
    cases b with
    | mk db =>
      exact congrArg String.mk (chLt_total_eq h1 h2)

/-- One row of the temporary `rename` table filled by `write_new` from the
output of `rename_files` (rename.py lines 171-178). -/
structure RenameRow where
  md5hash : String
  new_path : String
  new_base : String
  old_path : String
  old_base : String
  old_fname : String
  old_local : Bool
  deriving DecidableEq, Repr

/-- Number of `rename` rows proposing path `p`
(the `count(md5hash)` of the `dups` CTE, rename.py lines 183-187). -/
def pathCount (table : List RenameRow) (p : String) : Nat :=
  table.countP (fun r => r.new_path == p)

/-- Whether `p` is a colliding proposed path (the `HAVING count(md5hash) > 1`
filter of the `dups` CTE). -/
def isDup (table : List RenameRow) (p : String) : Bool :=
  decide (1 < pathCount table p)

/-- Denotation of `row_number() over (partition by new_path order by old_path)`
(rename.py line 191): one plus the number of rows of the same proposed path
whose old path is strictly smaller.  With pairwise distinct old paths this is
exactly the SQL row number; SQL leaves ties unspecified. -/
def rowNumber (table : List RenameRow) (r : RenameRow) : Nat :=
  1 + table.countP (fun q => q.new_path == r.new_path && strLt q.old_path r.old_path)

/-- The rows of the `row_ordered` CTE (rename.py lines 189-194): rows whose
proposed path collides, in temp-table insertion order (the final `SELECT * FROM
row_ordered` carries no `ORDER BY`). -/
def dupRows (table : List RenameRow) : List RenameRow :=
  table.filter (fun r => isDup table r.new_path)

/-- The `SELECT max(rn) n FROM row_ordered` of rename.py line 198.  On an empty
`row_ordered` the SQL yields NULL and the Python computes `len(str(None))`,
but no update is performed in that case, so the value is irrelevant there. -/
def maxRn (table : List RenameRow) : Nat :=
  (dupRows table).foldl (fun m r => Nat.max m (rowNumber table r)) 0

/-- The zero-padding width `digits = len(str(max_n))` (rename.py line 200). -/
def dupDigits (table : List RenameRow) : Nat :=
  (toString (maxRn table)).length

/-- The suffixed path built for one colliding row (rename.py lines 206-208):
the padded rank spliced between the stem and the extension with a hyphen. -/
def alteredPath (table : List RenameRow) (r : RenameRow) : String :=
  (splitext r.new_path).1 ++ "-" ++
    rjust (toString (rowNumber table r)) (dupDigits table) '0' ++
    (splitext r.new_path).2

/-- Embedding of `UPDATE rename SET new_path = ? WHERE md5hash = ? AND
new_path = ?` (rename.py lines 209-210): every table row matching both keys is
rewritten. -/
def sqlUpdateNewPath (altered m p : String) (t : List RenameRow) : List RenameRow :=
  t.map (fun r =>
    if r.md5hash == m && r.new_path == p then { r with new_path := altered } else r)

/-- The duplicate-handling phase of `write_new` (rename.py lines 181-211), the
Collision Resolver: fetch the colliding rows with their ranks, then apply one
keyed UPDATE per fetched row, sequentially, against the evolving table. -/
def resolve (table : List RenameRow) : List RenameRow :=
  (dupRows table).foldl
    (fun acc row => sqlUpdateNewPath (alteredPath table row) row.md5hash row.new_path acc)
    table

/-- The uniqueness invariant the spec ascribes to the Collision Resolver: no
two entries of a plan share `newPath`. -/
def pathsUnique (t : List RenameRow) : Prop :=
  (t.map (fun r => r.new_path)).Nodup

/-- Convenience constructor for plan rows in concrete examples. -/
def mkRow (h np op : String) : RenameRow :=
  { md5hash := h, new_path := np, new_base := "/newbase", old_path := op,
    old_base := "/oldbase", old_fname := basename op, old_local := true }

/-- Two plan entries with the same md5hash (true duplicate files) proposing the
same new path. -/
def c1plan : List RenameRow :=
  [mkRow "aaaa" "pics/a.jpg" "dir1/a.jpg", mkRow "aaaa" "pics/a.jpg" "dir2/a.jpg"]

/-- C1: the Collision Resolver does not leave all `newPath` values unique.
When two colliding entries carry the same md5hash, the first keyed UPDATE
(`WHERE md5hash = ? AND new_path = ?`) rewrites both rows to the same
rank-1 suffixed path and the second UPDATE matches nothing, so both entries
leave the resolver with the identical path `pics/a-1.jpg`. -/
theorem c1_duplicate_hash_collision :
    ((resolve c1plan).map (fun r => r.new_path) = ["pics/a-1.jpg", "pics/a-1.jpg"])
      ∧ ¬ pathsUnique (resolve c1plan) := by
  have h1 : (resolve c1plan).map (fun r => r.new_path) = ["pics/a-1.jpg", "pics/a-1.jpg"] := by
    rfl
  refine ⟨h1, fun h => ?_⟩
  rw [pathsUnique, h1] at h
  simp at h

theorem countP_newPath_eq_count (table : List RenameRow) (p : String) :
    pathCount table p = (table.map (fun r => r.new_path)).count p := by
  rw [pathCount, List.count, List.countP_map]
  rfl

theorem isDup_eq_false_of_unique {t : List RenameRow} (h : pathsUnique t)
    {r : RenameRow} (_hr : r ∈ t) : isDup t r.new_path = false := by
  have hc : pathCount t r.new_path ≤ 1 := by
    rw [countP_newPath_eq_count]
    exact List.nodup_iff_count_le_one.mp h _
  simp only [isDup, decide_eq_false_iff_not]
  omega

theorem dupRows_eq_nil_of_unique {t : List RenameRow} (h : pathsUnique t) :
    dupRows t = [] := by
  rw [dupRows, List.filter_eq_nil_iff]
  intro r hr
  simp [isDup_eq_false_of_unique h hr]

theorem resolve_eq_of_unique {t : List RenameRow} (h : pathsUnique t) :
    resolve t = t := by
  rw [resolve, dupRows_eq_nil_of_unique h]
  rfl

/-- A plan on which the resolver's output is not collision free: two entries
with distinct hashes collide on `a.jpg`, and a third entry already proposes
`a-1.jpg`, the very path the resolver hands to the first of them. -/
def c2plan : List RenameRow :=
  [mkRow "h1" "a.jpg" "o1/x.jpg", mkRow "h2" "a.jpg" "o2/x.jpg",
   mkRow "h3" "a-1.jpg" "o3/x.jpg"]

/-- C2 counterexample: the Collision Resolver is not idempotent on every plan
list.  On `c2plan` the first pass leaves `a-1.jpg` twice (one freshly suffixed
entry plus the pre-existing one), so a second pass rewrites paths again. -/
theorem c2_not_idempotent_counterexample :
    resolve (resolve c2plan) ≠ resolve c2plan := by
  have h1 : (resolve (resolve c2plan)).map (fun r => r.new_path)
      = ["a-1-1.jpg", "a-2.jpg", "a-1-2.jpg"] := by rfl
  have h2 : (resolve c2plan).map (fun r => r.new_path)
      = ["a-1.jpg", "a-2.jpg", "a-1.jpg"] := by rfl
  intro h
  rw [h, h2] at h1
  simp at h1

/-- C2 (amended): the Collision Resolver is idempotent on every plan whose
resolved output has pairwise-distinct `newPath` values: a collision-free plan
has no duplicate groups, so a second run performs no update at all. -/
theorem c2_resolver_idempotent_on_unique_output (p : List RenameRow)
    (h : pathsUnique (resolve p)) : resolve (resolve p) = resolve p :=
  resolve_eq_of_unique h

/-- Concrete plan whose resolution is collision free. -/
def c2wplan : List RenameRow :=
  [mkRow "h1" "b.jpg" "o1/x.jpg", mkRow "h2" "b.jpg" "o2/x.jpg"]

theorem c2_resolver_idempotent_witness :
    pathsUnique (resolve c2wplan) ∧ resolve (resolve c2wplan) = resolve c2wplan := by
  have hu : pathsUnique (resolve c2wplan) := by
    have hm : (resolve c2wplan).map (fun r => r.new_path) = ["b-1.jpg", "b-2.jpg"] := by rfl
    rw [pathsUnique, hm]
    decide
  exact ⟨hu, c2_resolver_idempotent_on_unique_output c2wplan hu⟩

theorem countP_lt_of_mem_diff {α : Type} {l : List α} {p q : α → Bool}
    (himp : ∀ x, q x = true → p x = true) {a : α} (ha : a ∈ l)
    (hpa : p a = true) (hqa : q a = false) : l.countP q < l.countP p := by
  induction l with
  | nil => cases ha
  | cons x t ih =>
    rw [List.countP_cons, List.countP_cons]
    rcases List.mem_cons.mp ha with h | h
    · subst h
      rw [hpa, hqa, if_pos rfl, if_neg Bool.false_ne_true]
      have hle : t.countP q ≤ t.countP p :=
        List.countP_mono_left (fun x _ hx => himp x hx)
      omega
    · have hlt := ih h
      have hx : (if q x = true then 1 else 0) ≤ (if p x = true then 1 else 0) := by
        by_cases hq : q x = true
        · simp [hq, himp x hq]
        · simp [hq]
      omega

theorem band_eq_true {a b : Bool} : (a && b) = true ↔ a = true ∧ b = true := by
  simp

theorem rowNumber_le_pathCount {plan : List RenameRow} {r : RenameRow} (hr : r ∈ plan) :
    rowNumber plan r ≤ pathCount plan r.new_path := by
  have hlt := countP_lt_of_mem_diff
    (p := fun q => q.new_path == r.new_path)
    (q := fun q => q.new_path == r.new_path && strLt q.old_path r.old_path)
    (fun x hx => (band_eq_true.mp hx).1)
    hr (by simp) (by simp [strLt_irrefl])
  rw [rowNumber, pathCount]
  omega

theorem rowNumber_inj {plan : List RenameRow} {q r : RenameRow}
    (hq : q ∈ plan) (hr : r ∈ plan) (hpath : q.new_path = r.new_path)
    (hrn : rowNumber plan q = rowNumber plan r) : q.old_path = r.old_path := by
  by_cases hlt : strLt q.old_path r.old_path = true
  · exfalso
    have hcount : plan.countP (fun x => x.new_path == q.new_path && strLt x.old_path q.old_path)
        < plan.countP (fun x => x.new_path == r.new_path && strLt x.old_path r.old_path) := by
      apply countP_lt_of_mem_diff (a := q) ?_ hq ?_ ?_
      · intro x hx
        rcases band_eq_true.mp hx with ⟨h1, h2⟩
        rw [band_eq_true]
        exact ⟨by rw [← hpath]; exact h1, strLt_trans h2 hlt⟩
      · rw [band_eq_true]
        exact ⟨by simp [hpath], hlt⟩
      · simp [strLt_irrefl]
    rw [rowNumber, rowNumber] at hrn
    omega
  · by_cases hgt : strLt r.old_path q.old_path = true
    · exfalso
      have hcount : plan.countP (fun x => x.new_path == r.new_path && strLt x.old_path r.old_path)
          < plan.countP (fun x => x.new_path == q.new_path && strLt x.old_path q.old_path) := by
        apply countP_lt_of_mem_diff (a := r) ?_ hr ?_ ?_
        · intro x hx
          rcases band_eq_true.mp hx with ⟨h1, h2⟩
          rw [band_eq_true]
          exact ⟨by rw [hpath]; exact h1, strLt_trans h2 hgt⟩
        · rw [band_eq_true]
          exact ⟨by simp [hpath], hgt⟩
        · simp [strLt_irrefl]
      rw [rowNumber, rowNumber] at hrn
      omega
    · exact strLt_total_eq (by simpa using hlt) (by simpa using hgt)

theorem foldl_update_getElem {plan rows : List RenameRow}
    (hrows : ∀ q ∈ rows, isDup plan q.new_path = true)
    {acc : List RenameRow} {i : Nat} (hi : i < plan.length)
    (hacc : acc[i]? = some plan[i])
    (hnd : isDup plan (plan[i].new_path) = false) :
    (rows.foldl
        (fun a row => sqlUpdateNewPath (alteredPath plan row) row.md5hash row.new_path a)
        acc)[i]? = some plan[i] := by
  induction rows generalizing acc with
  | nil => simpa using hacc
  | cons q rows ih =>
    rw [List.foldl_cons]
    apply ih (fun x hx => hrows x (List.mem_cons_of_mem _ hx))
    rw [sqlUpdateNewPath, List.getElem?_map, hacc, Option.map_some']
    have hdq := hrows q (List.mem_cons_self _ _)
    have hne : (plan[i].new_path == q.new_path) = false := by
      by_cases h : plan[i].new_path = q.new_path
      · rw [h] at hnd
        rw [hnd] at hdq
        cases hdq
      · exact beq_eq_false_iff_ne.mpr h
    simp [hne]

theorem resolve_getElem_of_not_dup (plan : List RenameRow) (i : Nat)
    (hi : i < plan.length) (hnd : isDup plan (plan[i].new_path) = false) :
    (resolve plan)[i]? = some plan[i] := by
  rw [resolve]
  exact foldl_update_getElem
    (fun q hq => (List.mem_filter.mp hq).2) hi
    (List.getElem?_eq_getElem hi) hnd

theorem rowNumber_perm {p1 p2 : List RenameRow} (h : p1.Perm p2) (r : RenameRow) :
    rowNumber p1 r = rowNumber p2 r := by
  rw [rowNumber, rowNumber, h.countP_eq]

theorem isDup_perm {p1 p2 : List RenameRow} (h : p1.Perm p2) (p : String) :
    isDup p1 p = isDup p2 p := by
  rw [isDup, isDup, pathCount, pathCount, h.countP_eq]

theorem dupRows_perm {p1 p2 : List RenameRow} (h : p1.Perm p2) :
    (dupRows p1).Perm (dupRows p2) := by
  rw [dupRows, dupRows]
  have h1 : (p1.filter (fun r => isDup p1 r.new_path)).Perm
      (p2.filter (fun r => isDup p1 r.new_path)) := h.filter _
  have h2 : p2.filter (fun r => isDup p1 r.new_path)
      = p2.filter (fun r => isDup p2 r.new_path) :=
    List.filter_congr (fun r _ => by rw [isDup_perm h])
  rwa [h2] at h1

theorem foldl_max_perm {l1 l2 : List Nat} (h : l1.Perm l2) (a : Nat) :
    l1.foldl Nat.max a = l2.foldl Nat.max a := by
  induction h generalizing a with
  | nil => rfl
  | cons x _ ih => simp only [List.foldl_cons]; exact ih _
  | swap x y l =>
    simp only [List.foldl_cons]
    have hm : (a.max y).max x = (a.max x).max y := by
      simp only [Nat.max_def]
      repeat' split
      all_goals omega
    rw [hm]
  | trans _ _ ih1 ih2 => rw [ih1, ih2]

theorem maxRn_perm {p1 p2 : List RenameRow} (h : p1.Perm p2) : maxRn p1 = maxRn p2 := by
  have hrn : rowNumber p1 = rowNumber p2 := funext (rowNumber_perm h)
  rw [maxRn, maxRn, hrn]
  have e1 : ∀ (l : List RenameRow),
      l.foldl (fun m r => Nat.max m (rowNumber p2 r)) 0
        = (l.map (rowNumber p2)).foldl Nat.max 0 :=
    fun l => (List.foldl_map _ _ _ _).symm
  rw [e1, e1]
  exact foldl_max_perm ((dupRows_perm h).map _) 0

theorem dupDigits_perm {p1 p2 : List RenameRow} (h : p1.Perm p2) :
    dupDigits p1 = dupDigits p2 := by
  rw [dupDigits, dupDigits, maxRn_perm h]

theorem alteredPath_perm {p1 p2 : List RenameRow} (h : p1.Perm p2) (r : RenameRow) :
    alteredPath p1 r = alteredPath p2 r := by
  rw [alteredPath, alteredPath, rowNumber_perm h, dupDigits_perm h]

/-- Twelve entries colliding on one proposed path, listed in ascending
old-path order. -/
def c9plan12 : List RenameRow :=
  [mkRow "h01" "pics/name.jpg" "2020/01/a.jpg", mkRow "h02" "pics/name.jpg" "2020/02/a.jpg",
   mkRow "h03" "pics/name.jpg" "2020/03/a.jpg", mkRow "h04" "pics/name.jpg" "2020/04/a.jpg",
   mkRow "h05" "pics/name.jpg" "2020/05/a.jpg", mkRow "h06" "pics/name.jpg" "2020/06/a.jpg",
   mkRow "h07" "pics/name.jpg" "2020/07/a.jpg", mkRow "h08" "pics/name.jpg" "2020/08/a.jpg",
   mkRow "h09" "pics/name.jpg" "2020/09/a.jpg", mkRow "h10" "pics/name.jpg" "2020/10/a.jpg",
   mkRow "h11" "pics/name.jpg" "2020/11/a.jpg", mkRow "h12" "pics/name.jpg" "2020/12/a.jpg"]

/-- Three entries colliding on one proposed path. -/
def c9plan3 : List RenameRow :=
  [mkRow "k1" "b/cat.jpg" "m/1.jpg", mkRow "k2" "b/cat.jpg" "m/2.jpg",
   mkRow "k3" "b/cat.jpg" "m/3.jpg"]

/-- C9: collision-group suffixes.  A group of 12 renders two-digit suffixes
`01`…`12`; with overall maximum rank 3 a group of 3 renders `1`…`3`; an entry
whose proposed path does not collide is left untouched by the resolver; within
a group the 1-based rank (one plus the number of group members with smaller
old path) stays between 1 and the group size and is injective on old paths;
and rank and suffixed path are invariant under shuffling the plan order. -/
theorem c9_collision_rank_assignment :
    ((resolve c9plan12).map (fun r => r.new_path)
      = ["pics/name-01.jpg", "pics/name-02.jpg", "pics/name-03.jpg", "pics/name-04.jpg",
         "pics/name-05.jpg", "pics/name-06.jpg", "pics/name-07.jpg", "pics/name-08.jpg",
         "pics/name-09.jpg", "pics/name-10.jpg", "pics/name-11.jpg", "pics/name-12.jpg"])
    ∧ ((resolve c9plan3).map (fun r => r.new_path)
      = ["b/cat-1.jpg", "b/cat-2.jpg", "b/cat-3.jpg"])
    ∧ (∀ (plan : List RenameRow) (i : Nat) (hi : i < plan.length),
        isDup plan (plan[i].new_path) = false → (resolve plan)[i]? = some plan[i])
    ∧ (∀ (plan : List RenameRow) (r : RenameRow), r ∈ plan →
        1 ≤ rowNumber plan r ∧ rowNumber plan r ≤ pathCount plan r.new_path)
    ∧ (∀ (plan : List RenameRow) (q r : RenameRow), q ∈ plan → r ∈ plan →
        q.new_path = r.new_path → rowNumber plan q = rowNumber plan r →
        q.old_path = r.old_path)
    ∧ (∀ (p1 p2 : List RenameRow), p1.Perm p2 → ∀ r : RenameRow,
        rowNumber p1 r = rowNumber p2 r ∧ alteredPath p1 r = alteredPath p2 r) := by
  refine ⟨by rfl, by rfl, ?_, ?_, ?_, ?_⟩
  · intro plan i hi hnd
    exact resolve_getElem_of_not_dup plan i hi hnd
  · intro plan r hr
    exact ⟨by rw [rowNumber]; omega, rowNumber_le_pathCount hr⟩
  · intro plan q r hq hr hpath hrn
    exact rowNumber_inj hq hr hpath hrn
  · intro p1 p2 h r
    exact ⟨rowNumber_perm h r, alteredPath_perm h r⟩

/-- Small plan with one non-colliding entry and one collision group of two. -/
def c9wplan : List RenameRow :=
  [mkRow "w1" "solo.jpg" "o/a.jpg", mkRow "w2" "dup.jpg" "o/b.jpg",
   mkRow "w3" "dup.jpg" "o/c.jpg"]

theorem c9_collision_rank_witness :
    ((resolve c9wplan)[0]? = some (mkRow "w1" "solo.jpg" "o/a.jpg"))
    ∧ (1 ≤ rowNumber c9wplan (mkRow "w3" "dup.jpg" "o/c.jpg")
        ∧ rowNumber c9wplan (mkRow "w3" "dup.jpg" "o/c.jpg")
            ≤ pathCount c9wplan (mkRow "w3" "dup.jpg" "o/c.jpg").new_path)
    ∧ ((mkRow "w2" "dup.jpg" "o/b.jpg").old_path = (mkRow "w2" "dup.jpg" "o/b.jpg").old_path)
    ∧ (rowNumber [mkRow "w2" "dup.jpg" "o/b.jpg", mkRow "w3" "dup.jpg" "o/c.jpg"]
          (mkRow "w2" "dup.jpg" "o/b.jpg")
        = rowNumber [mkRow "w3" "dup.jpg" "o/c.jpg", mkRow "w2" "dup.jpg" "o/b.jpg"]
          (mkRow "w2" "dup.jpg" "o/b.jpg")) := by
  have h := c9_collision_rank_assignment
  refine ⟨h.2.2.1 c9wplan 0 (by decide) (by rfl), ?_, ?_, ?_⟩
  · exact h.2.2.2.1 c9wplan (mkRow "w3" "dup.jpg" "o/c.jpg") (by decide)
  · exact h.2.2.2.2.1 c9wplan (mkRow "w2" "dup.jpg" "o/b.jpg") (mkRow "w2" "dup.jpg" "o/b.jpg")
      (by decide) (by decide) rfl rfl
  · exact (h.2.2.2.2.2 [mkRow "w2" "dup.jpg" "o/b.jpg", mkRow "w3" "dup.jpg" "o/c.jpg"]
      [mkRow "w3" "dup.jpg" "o/c.jpg", mkRow "w2" "dup.jpg" "o/b.jpg"]
      (List.Perm.swap _ _ _) (mkRow "w2" "dup.jpg" "o/b.jpg")).1

/-- One row of the `photo` table, restricted to the columns the Move Executor
touches (`UPDATE photo SET path = ?, fname = ?, dt_import = ? WHERE
md5hash = ? AND path = ?`, rename.py lines 242-245). -/
structure PhotoRow where
  path : String
  fname : String
  md5hash : String
  dt_import : String
  deriving DecidableEq, Repr

/-- The `UPDATE photo ...` of a successful move (rename.py lines 238-245):
the stored path is the new local path, or `new_base/new_path` when full paths
are stored. -/
def applyPhotoUpdate (imp : String) (localFlag : Bool) (row : RenameRow)
    (db : List PhotoRow) : List PhotoRow :=
  let final_path := if localFlag then row.new_path else row.new_base ++ "/" ++ row.new_path
  db.map (fun p =>
    if p.md5hash == row.md5hash && p.path == row.old_path then
      { p with path := final_path, fname := basename row.new_path, dt_import := imp }
    else p)

/-- The `u.rowcount` added to `updated` after a successful move. -/
def photoRowcount (row : RenameRow) (db : List PhotoRow) : Nat :=
  db.countP (fun p => p.md5hash == row.md5hash && p.path == row.old_path)

/-- State of the Move Executor while walking one destination-base group:
the live `photo` table, the last committed snapshot of it, the reported
failures, and the cumulative `updated` counter. -/
structure ExecState where
  db : List PhotoRow
  committed : List PhotoRow
  failures : List RenameRow
  updated : Nat
  deriving DecidableEq, Repr

/-- One iteration of the per-entry loop of `write_new` (rename.py lines
225-254).  `mv` tells whether `Path(old).rename(new)` succeeded for the entry;
an `OSError` is caught, the failure reported, and the record left untouched,
while a success updates the record and commits immediately. -/
def moveStep (mv : RenameRow → Bool) (imp : String) (localFlag : Bool)
    (st : ExecState) (row : RenameRow) : ExecState :=
  if mv row then
    let db2 := applyPhotoUpdate imp localFlag row st.db
    { db := db2, committed := db2, failures := st.failures,
      updated := st.updated + photoRowcount row st.db }
  else
    { st with failures := st.failures ++ [row] }

/-- The Move Executor loop over the plan entries of one destination base. -/
def runMoves (mv : RenameRow → Bool) (imp : String) (localFlag : Bool)
    (rows : List RenameRow) (st : ExecState) : ExecState :=
  rows.foldl (moveStep mv imp localFlag) st

theorem runMoves_nil (mv : RenameRow → Bool) (imp : String) (localFlag : Bool)
    (st : ExecState) : runMoves mv imp localFlag [] st = st := rfl

theorem runMoves_append (mv : RenameRow → Bool) (imp : String) (localFlag : Bool)
    (rows1 rows2 : List RenameRow) (st : ExecState) :
    runMoves mv imp localFlag (rows1 ++ rows2) st
      = runMoves mv imp localFlag rows2 (runMoves mv imp localFlag rows1 st) := by
  rw [runMoves, runMoves, runMoves, List.foldl_append]

theorem runMoves_all_failed (mv : RenameRow → Bool) (imp : String) (localFlag : Bool)
    {rows : List RenameRow} (hall : ∀ r ∈ rows, mv r = false) (st : ExecState) :
    runMoves mv imp localFlag rows st = { st with failures := st.failures ++ rows } := by
  induction rows generalizing st with
  | nil => simp [runMoves]
  | cons r rows ih =>
    rw [runMoves, List.foldl_cons, ← runMoves]
    rw [moveStep, if_neg (by simp [hall r (List.mem_cons_self _ _)])]
    rw [ih (fun x hx => hall x (List.mem_cons_of_mem _ hx))]
    simp

/-- C5: the Move Executor updates a record only for entries whose physical
rename succeeded (the final table is the initial one with exactly the updates
of the successful entries applied, in order); every failing entry is reported
and leaves the table untouched; each successful update is committed at once,
so the committed state always equals the live state; and a suffix of failing
entries neither aborts the run nor rolls back the previously committed
updates. -/
theorem c5_move_executor_per_entry (mv : RenameRow → Bool) (imp : String)
    (localFlag : Bool) (rows : List RenameRow) (st : ExecState)
    (hc : st.committed = st.db) :
    ((runMoves mv imp localFlag rows st).db
        = (rows.filter mv).foldl (fun d r => applyPhotoUpdate imp localFlag r d) st.db)
    ∧ ((runMoves mv imp localFlag rows st).committed = (runMoves mv imp localFlag rows st).db)
    ∧ ((runMoves mv imp localFlag rows st).failures
        = st.failures ++ rows.filter (fun r => !(mv r)))
    ∧ (∀ rows2 : List RenameRow, (∀ r ∈ rows2, mv r = false) →
        (runMoves mv imp localFlag (rows ++ rows2) st).committed
          = (runMoves mv imp localFlag rows st).committed
        ∧ (runMoves mv imp localFlag (rows ++ rows2) st).db
          = (runMoves mv imp localFlag rows st).db) := by
  have main : ∀ (rs : List RenameRow) (s : ExecState), s.committed = s.db →
      ((runMoves mv imp localFlag rs s).db
          = (rs.filter mv).foldl (fun d r => applyPhotoUpdate imp localFlag r d) s.db)
      ∧ ((runMoves mv imp localFlag rs s).committed = (runMoves mv imp localFlag rs s).db)
      ∧ ((runMoves mv imp localFlag rs s).failures
          = s.failures ++ rs.filter (fun r => !(mv r))) := by
    intro rs
    induction rs with
    | nil => intro s hs; simp [runMoves, hs]
    | cons r rs ih =>
      intro s hs
      rw [runMoves, List.foldl_cons, ← runMoves]
      by_cases hr : mv r = true
      · have step : moveStep mv imp localFlag s r
            = { db := applyPhotoUpdate imp localFlag r s.db,
                committed := applyPhotoUpdate imp localFlag r s.db,
                failures := s.failures, updated := s.updated + photoRowcount r s.db } := by
          rw [moveStep, if_pos hr]
        rcases ih (moveStep mv imp localFlag s r) (by rw [step]) with ⟨h1, h2, h3⟩
        refine ⟨?_, h2, ?_⟩
        · rw [h1, step, List.filter_cons_of_pos hr, List.foldl_cons]
        · rw [h3, step, List.filter_cons_of_neg (by simp [hr])]
      · have hrf : mv r = false := by simpa using hr
        have step : moveStep mv imp localFlag s r
            = { s with failures := s.failures ++ [r] } := by
          rw [moveStep, if_neg (by simp [hrf])]
        rcases ih (moveStep mv imp localFlag s r) (by rw [step]; exact hs) with ⟨h1, h2, h3⟩
        refine ⟨?_, h2, ?_⟩
        · rw [h1, step, List.filter_cons_of_neg (by simp [hrf])]
        · rw [h3, step, List.filter_cons_of_pos (by simp [hrf])]
          simp
  rcases main rows st hc with ⟨h1, h2, h3⟩
  refine ⟨h1, h2, h3, ?_⟩
  intro rows2 hall
  rw [runMoves_append, runMoves_all_failed mv imp localFlag hall]
  exact ⟨rfl, rfl⟩

/-- Concrete data for the Move Executor witness: two plan entries, the second
of which fails its physical rename. -/
def c5rows : List RenameRow :=
  [mkRow "m1" "new/a.jpg" "old/a.jpg", mkRow "m2" "new/b.jpg" "old/b.jpg"]

def c5db : List PhotoRow :=
  [{ path := "old/a.jpg", fname := "a.jpg", md5hash := "m1", dt_import := "t0" },
   { path := "old/b.jpg", fname := "b.jpg", md5hash := "m2", dt_import := "t0" }]

def c5mv : RenameRow → Bool := fun r => r.md5hash == "m1"

def c5st : ExecState := { db := c5db, committed := c5db, failures := [], updated := 0 }

theorem c5_move_executor_witness :
    ((runMoves c5mv "t1" true c5rows c5st).db
        = ((c5rows.filter c5mv).foldl (fun d r => applyPhotoUpdate "t1" true r d) c5st.db))
    ∧ ((runMoves c5mv "t1" true c5rows c5st).committed
        = (runMoves c5mv "t1" true c5rows c5st).db)
    ∧ ((runMoves c5mv "t1" true c5rows c5st).failures
        = c5st.failures ++ c5rows.filter (fun r => !(c5mv r))) := by
  rcases c5_move_executor_per_entry c5mv "t1" true c5rows c5st rfl with ⟨h1, h2, h3, _⟩
  exact ⟨h1, h2, h3⟩

/-- One row of the `import` table. -/
structure ImportRow where
  import_date : String
  base_path : String
  localFlag : Bool
  kind : String
  deriving DecidableEq, Repr

/-- DB-API parameter binding: executing a statement with `placeholders`
parameter markers and a tuple of `params` runs the statement only when the
counts agree; otherwise the driver raises (sqlite3 `ProgrammingError:
Incorrect number of bindings supplied`; psycopg a `ProgrammingError`
subclass after the server rejects the unsubstituted `%s`). -/
def bindExec {α : Type} (placeholders : Nat) (params : List String)
    (run : List String → α) : Except PyErr α :=
  if params.length = placeholders then Except.ok (run params)
  else Except.error PyErr.programmingError

/-- The per-base tail of `write_new` (rename.py lines 255-256): when the
cumulative `updated` counter is zero, the code executes
`DELETE FROM import WHERE import_date = ?` — one placeholder — without
supplying any parameter tuple. -/
def writeNewFinishBase (updated : Nat) (imports : List ImportRow) :
    Except PyErr (List ImportRow) :=
  if updated = 0 then
    bindExec 1 []
      (fun ps => imports.filter (fun r => !(r.import_date == ps.headD "")))
  else Except.ok imports

/-- The tail of `update_db` (update.py lines 103-104): the same DELETE, but
with the `(import_date,)` parameter tuple supplied. -/
def updateDbFinish (count : Nat) (imports : List ImportRow) (import_date : String) :
    Except PyErr (List ImportRow) :=
  if count = 0 then
    bindExec 1 [import_date]
      (fun ps => imports.filter (fun r => !(r.import_date == ps.headD "")))
  else Except.ok imports

/-- C4: the zero-update batch cleanup.  In the reconciliation flow
(`update_db`) a zero update count does delete the batch row, but in the rename
flow (`write_new`) the DELETE statement is executed with no bound parameter,
so instead of removing the batch the driver raises a `ProgrammingError` and
the run aborts; a nonzero cumulative count skips the delete entirely, so a
later base group that updated nothing keeps its no-op batch row. -/
theorem c4_zero_update_batch_delete :
    (∀ imports : List ImportRow,
        writeNewFinishBase 0 imports = Except.error PyErr.programmingError)
    ∧ (∀ (imports : List ImportRow) (d : String),
        updateDbFinish 0 imports d
          = Except.ok (imports.filter (fun r => !(r.import_date == d))))
    ∧ (∀ (u : Nat) (imports : List ImportRow),
        writeNewFinishBase (u + 1) imports = Except.ok imports) := by
  refine ⟨fun imports => rfl, fun imports d => rfl, fun u imports => ?_⟩
  rw [writeNewFinishBase, if_neg (by omega)]

/-- Primitive Python values appearing in the duplicate-handling branch of
`write_results` (scan_image.py lines 338-354): strings, integers, and `None`. -/
inductive PyPrim where
  | str (s : String)
  | int (n : Int)
  | pynone
  deriving DecidableEq, Repr

/-- Python values: primitives or flat dictionaries with primitive values
(the `{'md5hash': ..., 'n': ...}` dictionaries of the `hard` list). -/
inductive PyVal where
  | prim (p : PyPrim)
  | dict (entries : List (String × PyPrim))
  deriving DecidableEq, Repr

/-- Python `==` on dictionaries: equal key sets with equal values. -/
def pyDictEq (a b : List (String × PyPrim)) : Bool :=
  a.all (fun kv => b.lookup kv.1 == some kv.2)
    && b.all (fun kv => a.lookup kv.1 == some kv.2)

/-- Python `==` on the values above: primitives compare by value (`None` only
equals `None`), dictionaries by contents, and a primitive never equals a
dictionary. -/
def pyEq : PyVal → PyVal → Bool
  | .prim a, .prim b => a == b
  | .dict a, .dict b => pyDictEq a b
  | _, _ => false

/-- Python `x in l` on a list: some element compares equal to `x`. -/
def pyIn (v : PyVal) (l : List PyVal) : Bool :=
  l.any (fun w => pyEq v w)

/-- A row of the per-hash count query of `write_results` (scan_image.py lines
326-338): `md5hash` with the number of photo paths carrying it. -/
structure CountRow where
  md5hash : String
  n : Nat
  deriving DecidableEq, Repr

/-- A processed scan-result row (the output of `process_results`, the rows
`write_results` receives). -/
structure ScanRow where
  path : String
  fname : String
  ftype : String
  md5hash : Option String
  dt_orig : Option String
  dt_mod : String
  dt_import : String
  tags : Option String
  width : Option Nat
  height : Option Nat
  deriving DecidableEq, Repr

/-- Lift an optional hash to the Python value stored under `'md5hash'`. -/
def toPyPrim (h : Option String) : PyPrim :=
  match h with
  | some s => .str s
  | none => .pynone

/-- The `hard` list of scan_image.py line 343: count rows with `n != 1`,
kept as Python dictionaries. -/
def hardDicts (rows : List CountRow) : List PyVal :=
  (rows.filter (fun r => r.n != 1)).map
    (fun h => PyVal.dict [("md5hash", .str h.md5hash), ("n", .int (h.n : Int))])

/-- The `hard_results` filter of scan_image.py line 344:
`[x for x in results if x['md5hash'] in hard]`, where `hard` is a list of
dictionaries and `x['md5hash']` a string (or `None`). -/
def hardResults (results : List ScanRow) (rows : List CountRow) : List ScanRow :=
  results.filter (fun x => pyIn (.prim (toPyPrim x.md5hash)) (hardDicts rows))

/-- A record of the `photo` table as read by `update_db` (update.py line 79),
with the nullable stored hash. -/
structure PhotoRec where
  path : String
  fname : String
  md5hash : Option String
  dt_import : String
  deriving DecidableEq, Repr

/-- Python `==` between two nullable hashes: `None` equals only `None`. -/
def optHashEq (a b : Option String) : Bool :=
  match a, b with
  | none, none => true
  | some x, some y => x == y
  | _, _ => false

/-- An entry of the `hashed` list produced by `hash_files`:
`(md5 checksum or None, full path, local path)`. -/
abbrev HashTriple := Option String × String × String

/-- State of the `update_db` matching loop: the live `photo` table, the
shrinking `hashed_iter` list, and the cumulative update count. -/
structure UpdState where
  db : List PhotoRec
  hiter : List HashTriple
  count : Nat
  deriving DecidableEq, Repr

/-- One iteration of the `update_db` loop (update.py lines 81-102): if the
record's hash occurs in `hashed_iter`, take the FIRST such entry
(`hash_list.index`), update the record's path/fname/dt_import to that entry's
location, and pop the entry so it cannot be reused for another duplicate. -/
def updateDbStep (localFlag : Bool) (import_date : String)
    (st : UpdState) (row : PhotoRec) : UpdState :=
  match (st.hiter.map (fun t => t.1)).findIdx? (fun h => optHashEq h row.md5hash) with
  | none => st
  | some idx =>
    let trip := st.hiter.getD idx (none, "", "")
    let new_path := slashify trip.2.1
    let new_local := slashify trip.2.2
    let fname := basename trip.2.1
    let store_path := if localFlag then new_local else new_path
    let rowcount := st.db.countP (fun p => p.path == row.path)
    { db := st.db.map (fun p =>
        if p.path == row.path then
          { p with path := store_path, fname := fname, dt_import := import_date }
        else p),
      hiter := st.hiter.eraseIdx idx,
      count := st.count + rowcount }

/-- The `update_db` matching loop over the snapshot of photo records fetched
before the loop (update.py lines 79-102); records arrive ordered by
`(base_path, path)`. -/
def updateDbMatch (localFlag : Bool) (import_date : String)
    (records : List PhotoRec) (hashed : List HashTriple) : UpdState :=
  records.foldl (updateDbStep localFlag import_date)
    { db := records, hiter := hashed, count := 0 }

theorem pyEq_prim_dict (p : PyPrim) (entries : List (String × PyPrim)) :
    pyEq (.prim p) (.dict entries) = false := rfl

/-- Two duplicate records sharing hash `h`, ordered by path as the SQL
delivers them. -/
def c3records : List PhotoRec :=
  [{ path := "A/img.jpg", fname := "img.jpg", md5hash := some "h", dt_import := "t0" },
   { path := "B/img.jpg", fname := "img.jpg", md5hash := some "h", dt_import := "t0" }]

/-- The fresh scan of the moved duplicates, walk order listing `B2` first. -/
def c3hashed : List HashTriple :=
  [(some "h", "B2/img.jpg", "B2/img.jpg"), (some "h", "A2/img.jpg", "A2/img.jpg")]

/-- C3: the Reconciliation Matcher does not disambiguate duplicates by
partial string similarity.  The `hard_results` list of `write_results` is
empty for every input, because `x['md5hash'] in hard` compares a string (or
`None`) against dictionaries and Python `==` between them is always false, so
the fuzzy-match branch never runs; and `update_db` assigns duplicate records
to fresh paths in list order: the record at `A/img.jpg` receives
`B2/img.jpg`, the first fresh path in walk order, not its similarity-nearest
candidate `A2/img.jpg`. -/
theorem c3_similarity_matching_dead :
    (∀ (results : List ScanRow) (rows : List CountRow), hardResults results rows = [])
    ∧ ((updateDbMatch false "t1" c3records c3hashed).db.map (fun p => p.path)
        = ["B2/img.jpg", "A2/img.jpg"])
    ∧ ((updateDbMatch false "t1" c3records c3hashed).count = 2) := by
  refine ⟨?_, by rfl, by rfl⟩
  intro results rows
  rw [hardResults, List.filter_eq_nil_iff]
  intro x _ hcontra
  rw [pyIn, List.any_eq_true] at hcontra
  rcases hcontra with ⟨w, hw, hpe⟩
  rcases List.mem_map.mp hw with ⟨h, _, rfl⟩
  rw [pyEq_prim_dict] at hpe
  cases hpe

/-- Values substitutable into a rename template: the string and integer
entries of the `vd` dictionary of `rename_files`. -/
inductive FmtVal where
  | str (s : String)
  | int (n : Int)
  deriving DecidableEq, Repr

/-- Decimal digit value of a character, when it is one. -/
def digitToNat (c : Char) : Option Nat :=
  if 48 ≤ c.toNat && c.toNat ≤ 57 then some (c.toNat - 48) else none

/-- Parse a non-empty all-digit character list as a natural number. -/
def parseNat (cs : List Char) : Option Nat :=
  match cs with
  | [] => none
  | _ :: _ =>
    cs.foldl (fun acc c => acc.bind (fun a => (digitToNat c).map (fun d => a * 10 + d)))
      (some 0)

/-- Python format-spec application for the specs used by rename templates:
an empty spec renders the value as `str` does, and a `0`-flagged spec
zero-pads an integer to the given width. -/
def applyFormatSpec (spec : List Char) (v : FmtVal) : String :=
  match v with
  | .str s => s
  | .int n =>
    let base := toString n
    match spec with
    | '0' :: w => rjust base ((parseNat w).getD 0) '0'
    | _ => base

/-- Render one `{...}` replacement field: the part before the first `:` names
the `vd` entry, the part after it is the format spec; a missing name is
Python's `KeyError`, modelled as `none`. -/
def renderField (env : String → Option FmtVal) (field : List Char) : Option String :=
  let name := field.takeWhile (fun c => c ≠ ':')
  let spec := (field.dropWhile (fun c => c ≠ ':')).drop 1
  (env (String.mk name)).map (applyFormatSpec spec)

/-- Scanner for Python `str.format`: literal text is copied, `{field}`
replacement fields are rendered from `env`.  The scanner consumes at least one
character per step, so running it with the input length as fuel never hits the
fuel-exhaustion branch. -/
def pyFormatGo (env : String → Option FmtVal) (fuel : Nat) (cs : List Char) :
    Option String :=
  match fuel, cs with
  | _, [] => some ""
  | 0, _ :: _ => none
  | fuel + 1, '{' :: rest =>
    let field := rest.takeWhile (fun c => c ≠ '}')
    let rest2 := (rest.dropWhile (fun c => c ≠ '}')).drop 1
    match renderField env field with
    | none => none
    | some s =>
      match pyFormatGo env fuel rest2 with
      | none => none
      | some t => some (s ++ t)
  | fuel + 1, c :: rest =>
    (pyFormatGo env fuel rest).map (fun t => String.mk [c] ++ t)

/-- Embedding of `out_format.format(**vd)` for a rename template. -/
def pyFormat (tpl : String) (env : String → Option FmtVal) : Option String :=
  pyFormatGo env tpl.data.length tpl.data

/-- The filename-processing step of `rename_files` (rename.py lines 95-104):
when a template is given, render it, and append the old extension unless the
template's own literal text already carries one; without a template keep the
old name. -/
def newName (out_format : Option String) (env : String → Option FmtVal)
    (old_name : String) : Option String :=
  match out_format with
  | none => some old_name
  | some fmt =>
    let old_ext := (splitext old_name).2
    let new_ext := (splitext fmt).2
    let out_ext := if new_ext ≠ "" then "" else old_ext
    (pyFormat fmt env).map (fun s => s ++ out_ext)

/-- The `vd` entries for a record captured 2021-06-15 with original name
`IMG_001.jpg` (rename.py lines 57-85). -/
def c6env : String → Option FmtVal := fun name =>
  ([("md5hash", FmtVal.str "0123456789abcdef0123456789abcdef"),
    ("year", FmtVal.int 2021),
    ("month", FmtVal.int 6),
    ("old_name", FmtVal.str "IMG_001.jpg"),
    ("timestamp", FmtVal.str "20210615_000000"),
    ("isoyear", FmtVal.int 2021),
    ("isoweek", FmtVal.int 24),
    ("isoday", FmtVal.int 2)]).lookup name

/-- The same record with an upper-case extension `IMG_001.JPG`. -/
def c6envU : String → Option FmtVal := fun name =>
  ([("year", FmtVal.int 2021),
    ("old_name", FmtVal.str "IMG_001.JPG")]).lookup name

/-- C6 counterexample: the template `{year}/{month:02}_{old_name}` applied to
the example record does NOT yield `2021/06_IMG_001.jpg`.  `{old_name}`
substitutes the full original filename, and since the template's literal text
supplies no extension the old extension is appended once more, producing
`2021/06_IMG_001.jpg.jpg`. -/
theorem c6_template_double_extension :
    (newName (some "{year}/{month:02}_{old_name}") c6env "IMG_001.jpg"
      = some "2021/06_IMG_001.jpg.jpg")
    ∧ (newName (some "{year}/{month:02}_{old_name}") c6env "IMG_001.jpg"
      ≠ some "2021/06_IMG_001.jpg") := by
  have h1 : newName (some "{year}/{month:02}_{old_name}") c6env "IMG_001.jpg"
      = some "2021/06_IMG_001.jpg.jpg" := by rfl
  refine ⟨h1, ?_⟩
  rw [h1]
  simp

/-- C6 (amended): the rendered name is `2021/06_IMG_001.jpg.jpg`; in general,
whenever the template's literal suffix supplies no extension, the rendered
template gets the original extension appended verbatim — preserved, but never
lower-cased, as the upper-case `IMG_001.JPG` example shows. -/
theorem c6_extension_appended_verbatim :
    (newName (some "{year}/{month:02}_{old_name}") c6env "IMG_001.jpg"
      = some "2021/06_IMG_001.jpg.jpg")
    ∧ (∀ (fmt : String) (env : String → Option FmtVal) (old_name s : String),
        (splitext fmt).2 = "" → pyFormat fmt env = some s →
        newName (some fmt) env old_name = some (s ++ (splitext old_name).2))
    ∧ (newName (some "{year}/{old_name}") c6envU "IMG_001.JPG"
      = some "2021/IMG_001.JPG.JPG") := by
  refine ⟨by rfl, ?_, by rfl⟩
  intro fmt env old_name s hext hfmt
  rw [newName]
  simp only [hext, hfmt]
  rw [if_neg (by simp), Option.map_some']

theorem c6_extension_appended_witness :
    ((splitext "{year}/{month:02}_{old_name}").2 = "")
    ∧ (pyFormat "{year}/{month:02}_{old_name}" c6env = some "2021/06_IMG_001.jpg")
    ∧ (newName (some "{year}/{month:02}_{old_name}") c6env "IMG_001.jpg"
      = some ("2021/06_IMG_001.jpg" ++ (splitext "IMG_001.jpg").2)) := by
  refine ⟨by rfl, by rfl, ?_⟩
  exact c6_extension_appended_verbatim.2.1 "{year}/{month:02}_{old_name}" c6env
    "IMG_001.jpg" "2021/06_IMG_001.jpg" (by rfl) (by rfl)

/-- One parameter row handed to the three `executemany` inserts of
`write_results` (scan_image.py lines 300-319). -/
inductive WriteOp where
  | insertHash (md5hash : Option String)
  | insertPhoto (r : ScanRow)
  | insertTag (md5hash : Option String) (tags : Option String) (width height : Option Nat)
  deriving DecidableEq, Repr

/-- The statement sequence issued by the insert branch of `write_results`
(scan_image.py lines 315-319): `executemany` iterates the `results` list as
given — the `results.sort(key=itemgetter('root', 'fname'))` call at line 299
is commented out — first for the `hash` insert, then `photo`, then `tag`. -/
def writeOpsInsert (results : List ScanRow) : List WriteOp :=
  (results.map (fun r => WriteOp.insertHash r.md5hash))
    ++ (results.map (fun r => WriteOp.insertPhoto r))
    ++ (results.map (fun r => WriteOp.insertTag r.md5hash r.tags r.width r.height))

/-- Select the `photo` insert parameter carried by a statement, if any. -/
def photoOf : WriteOp → Option ScanRow
  | .insertPhoto r => some r
  | _ => none

/-- The `photo` rows in the order they are inserted. -/
def photoInsertSeq (results : List ScanRow) : List ScanRow :=
  (writeOpsInsert results).filterMap photoOf

theorem filterMap_photoOf_hash (l : List ScanRow) :
    ((l.map (fun r => WriteOp.insertHash r.md5hash)).filterMap photoOf) = [] := by
  induction l with
  | nil => rfl
  | cons r t ih => simp [List.filterMap_cons, photoOf, ih]

theorem filterMap_photoOf_tag (l : List ScanRow) :
    ((l.map (fun r => WriteOp.insertTag r.md5hash r.tags r.width r.height)).filterMap
      photoOf) = [] := by
  induction l with
  | nil => rfl
  | cons r t ih => simp [List.filterMap_cons, photoOf, ih]

theorem filterMap_photoOf_photo (l : List ScanRow) :
    ((l.map (fun r => WriteOp.insertPhoto r)).filterMap photoOf) = l := by
  induction l with
  | nil => rfl
  | cons r t ih => simp [List.filterMap_cons, photoOf, ih]

/-- Embedding of posix `os.path.dirname`, restricted to single-separator
paths: the text before the last `/`. -/
def dirname (p : String) : String :=
  match strRfind p '/' with
  | i => if i < 0 then "" else String.mk (p.data.take i.toNat)

/-- Modelled from the spec: the `(directory, filename)` ordering the spec says
the write stage re-sorts by before persisting. -/
def specDirFnameLe (a b : ScanRow) : Bool :=
  strLt (dirname a.path) (dirname b.path)
    || (dirname a.path == dirname b.path
        && (a.fname == b.fname || strLt a.fname b.fname))

/-- Insertion of a row into a list sorted by `le`. -/
def sortedInsert (le : ScanRow → ScanRow → Bool) (a : ScanRow) :
    List ScanRow → List ScanRow
  | [] => [a]
  | b :: t => if le a b then a :: b :: t else b :: sortedInsert le a t

/-- Modelled from the spec: insertion sort by `(directory, filename)`, the
order in which the spec claims each chunk's results are persisted. -/
def specInsertOrder (results : List ScanRow) : List ScanRow :=
  results.foldr (sortedInsert specDirFnameLe) []

/-- Concrete scan rows: `c7r2` sorts after `c7r1` by directory. -/
def c7r1 : ScanRow :=
  { path := "a/x.jpg", fname := "x.jpg", ftype := "jpeg", md5hash := some "p1",
    dt_orig := none, dt_mod := "2021-01-01 00:00:00", dt_import := "t0",
    tags := none, width := none, height := none }

def c7r2 : ScanRow :=
  { path := "b/y.jpg", fname := "y.jpg", ftype := "jpeg", md5hash := some "p2",
    dt_orig := none, dt_mod := "2021-01-01 00:00:00", dt_import := "t0",
    tags := none, width := none, height := none }

/-- C7 counterexample: the write stage does not re-sort results by
`(directory, filename)` before persisting: handed the chunk in completion
order `[c7r2, c7r1]`, the `photo` inserts run in that same order, which is not
the sorted order. -/
theorem c7_no_resort_counterexample :
    (photoInsertSeq [c7r2, c7r1] = [c7r2, c7r1])
    ∧ (specInsertOrder [c7r2, c7r1] = [c7r1, c7r2])
    ∧ (photoInsertSeq [c7r2, c7r1] ≠ specInsertOrder [c7r2, c7r1]) := by
  have h1 : photoInsertSeq [c7r2, c7r1] = [c7r2, c7r1] := by rfl
  have h2 : specInsertOrder [c7r2, c7r1] = [c7r1, c7r2] := by rfl
  refine ⟨h1, h2, ?_⟩
  rw [h1, h2]
  intro h
  have := List.head_eq_of_cons_eq h
  rw [c7r1, c7r2] at this
  simp at this

/-- C7 (amended): the write stage persists each chunk's `photo` rows exactly
in the order the results list arrives (the re-sort is commented out), so two
runs whose workers complete in different orders issue their inserts in those
different orders. -/
theorem c7_insert_order_is_input_order :
    (∀ results : List ScanRow, photoInsertSeq results = results)
    ∧ (List.Perm [c7r1, c7r2] [c7r2, c7r1]
        ∧ photoInsertSeq [c7r1, c7r2] ≠ photoInsertSeq [c7r2, c7r1]) := by
  have hio : ∀ results : List ScanRow, photoInsertSeq results = results := by
    intro results
    rw [photoInsertSeq, writeOpsInsert, List.filterMap_append, List.filterMap_append,
      filterMap_photoOf_hash, filterMap_photoOf_photo, filterMap_photoOf_tag]
    simp
  refine ⟨hio, List.Perm.swap c7r2 c7r1 [], ?_⟩
  rw [hio, hio]
  intro h
  have := List.head_eq_of_cons_eq h
  rw [c7r1, c7r2] at this
  simp at this

/-- Embedding of `re.sub(r'^[\\/]', '', s)`: strip one leading slash or
backslash. -/
def stripLeadSlash (s : String) : String :=
  match s.data with
  | c :: t => if c == '/' || c == '\\' then String.mk t else s
  | [] => s

/-- Whether `p` occurs at the head of `cs`, comparing characters. -/
def headMatch : List Char → List Char → Bool
  | [], _ => true
  | _ :: _, [] => false
  | p :: ps, c :: cs => p == c && headMatch ps cs

/-- Left-to-right non-overlapping replacement of `pat` by `repl`, the
behaviour of Python `str.replace` for a non-empty pattern.  The fuel is the
input length, which a non-empty pattern can never exhaust. -/
def replaceGo (pat repl : List Char) : Nat → List Char → List Char
  | _, [] => []
  | 0, cs => cs
  | fuel + 1, c :: rest =>
    if headMatch pat (c :: rest) then
      repl ++ replaceGo pat repl fuel ((c :: rest).drop pat.length)
    else
      c :: replaceGo pat repl fuel rest

/-- Embedding of Python `s.replace(pat, repl)` for a non-empty pattern. -/
def pyReplace (s pat repl : String) : String :=
  if pat.data.isEmpty then s
  else String.mk (replaceGo pat.data repl.data s.data.length s.data)

/-- The local path computed by `hash_files` (update.py line 26):
remove every occurrence of the scanned root from the full path, then strip one
leading separator. -/
def localPath (scan_path full_path : String) : String :=
  stripLeadSlash (pyReplace full_path scan_path "")

/-- The walk result handed to the hashing loop: a file path together with the
bytes `file.read()` returns, or `none` when the read raises. -/
abbrev FileEntry := String × Option (List Nat)

/-- Embedding of `hash_files` (update.py lines 14-41) over an abstract digest
function `md5`.  A failing `read()` is logged, leaves `data = None`, makes
`hashlib.md5(None)` raise a logged `TypeError`, and the file is still appended
to the result list with a `None` checksum; the loop then continues. -/
def hash_files_model (md5 : List Nat → String) (scan_path : String)
    (files : List FileEntry) : List HashTriple × List String :=
  (files.map (fun f =>
      match f.2 with
      | some data => (some (md5 data), f.1, localPath scan_path f.1)
      | none => (none, f.1, localPath scan_path f.1)),
   (files.map (fun f =>
      match f.2 with
      | some _ => []
      | none => ["read() failure for: " ++ f.1,
                 "hashlib.md5() failure for: " ++ f.1])).flatten)

/-- Concrete digest and walk for the counterexample: one readable file and one
unreadable one. -/
def c8md5 : List Nat → String := fun _ => "deadbeef"

def c8files : List FileEntry :=
  [("root/ok.jpg", some [1, 2, 3]), ("root/bad.jpg", none)]

/-- A record whose stored hash is NULL, as the nullable `photo.md5hash` column
permits. -/
def c8record : PhotoRec :=
  { path := "old/x.jpg", fname := "x.jpg", md5hash := none, dt_import := "t0" }

/-- C8 counterexample: a file whose contents cannot be read is NOT excluded
from the fresh-hash list — it is appended with a `None` checksum — and it CAN
be matched to a record: `update_db` re-links a record whose stored hash is
NULL to the unreadable file's path, because Python's `None == None` holds in
the `md5hash in hash_list` test. -/
theorem c8_failed_file_not_excluded :
    ((hash_files_model c8md5 "root" c8files).1
      = [(some "deadbeef", "root/ok.jpg", "ok.jpg"),
         (none, "root/bad.jpg", "bad.jpg")])
    ∧ ((none, "root/bad.jpg", "bad.jpg") ∈ (hash_files_model c8md5 "root" c8files).1)
    ∧ ((updateDbMatch false "t1" [c8record]
          (hash_files_model c8md5 "root" c8files).1).count = 1)
    ∧ ((updateDbMatch false "t1" [c8record]
          (hash_files_model c8md5 "root" c8files).1).db.map (fun p => p.path)
        = ["root/bad.jpg"]) := by
  have h1 : (hash_files_model c8md5 "root" c8files).1
      = [(some "deadbeef", "root/ok.jpg", "ok.jpg"),
         (none, "root/bad.jpg", "bad.jpg")] := by rfl
  refine ⟨h1, ?_, by rfl, by rfl⟩
  rw [h1]
  simp

/-- C8 (amended): a read or hash failure is logged and the run continues over
the remaining files, but the failed file stays in the fresh list with a `None`
checksum rather than being excluded; it can never be matched to a record whose
stored hash is non-null (`None` never equals a string), though it can match a
NULL-hash record. -/
theorem c8_failed_file_kept_with_null_hash (md5 : List Nat → String)
    (root : String) (files : List FileEntry) :
    ((hash_files_model md5 root files).1.length = files.length)
    ∧ (∀ f ∈ files, f.2 = none →
        ((none, f.1, localPath root f.1) ∈ (hash_files_model md5 root files).1
          ∧ ("read() failure for: " ++ f.1) ∈ (hash_files_model md5 root files).2))
    ∧ (∀ s : String, optHashEq none (some s) = false ∧ optHashEq (some s) none = false) := by
  refine ⟨by rw [hash_files_model]; exact List.length_map _ _, ?_, fun s => ⟨rfl, rfl⟩⟩
  intro f hf hnone
  constructor
  · rw [hash_files_model]
    refine List.mem_map.mpr ⟨f, hf, ?_⟩
    rw [hnone]
  · rw [hash_files_model]
    apply List.mem_flatten.mpr
    refine ⟨["read() failure for: " ++ f.1, "hashlib.md5() failure for: " ++ f.1], ?_, ?_⟩
    · refine List.mem_map.mpr ⟨f, hf, ?_⟩
      rw [hnone]
    · simp

theorem c8_failed_file_kept_witness :
    ((hash_files_model c8md5 "root" c8files).1.length = c8files.length)
    ∧ ((none, "root/bad.jpg", localPath "root" "root/bad.jpg")
        ∈ (hash_files_model c8md5 "root" c8files).1)
    ∧ (("read() failure for: " ++ "root/bad.jpg")
        ∈ (hash_files_model c8md5 "root" c8files).2) := by
  have h := c8_failed_file_kept_with_null_hash c8md5 "root" c8files
  have h2 := h.2.1 ("root/bad.jpg", none) (by decide) rfl
  exact ⟨h.1, h2.1, h2.2⟩

/-- Embedding of `random.sample(l, k)` (rename.py line 317): raises
`ValueError` when the sample size exceeds the population, otherwise returns
`k` distinct elements.  Which `k` elements the source draws is random; the
model returns the first `k`, which none of the properties below depend on. -/
def randomSample (l : List RenameRow) (k : Nat) : Except PyErr (List RenameRow) :=
  if l.length < k then Except.error PyErr.valueError
  else Except.ok (l.take k)

/-- Embedding of `confirm_write` (rename.py lines 309-335): print a sample of
5 planned renames, then ask for confirmation; `ask` is the interactive answer,
confirming exactly when its first character lower-cases to `y`. -/
def confirm_write_model (out_dict : List RenameRow) (ask : String) :
    Except PyErr Bool :=
  match randomSample out_dict 5 with
  | .error e => .error e
  | .ok _print_list =>
    .ok (match ask.data with
      | [] => false
      | c :: _ => c.toLower == 'y')

/-- Outcome of `test_check` (rename.py lines 338-369). -/
inductive TestOutcome where
  | wroteNew
  | skipped
  | wroteTest (path : String)
  | printedStdout
  deriving DecidableEq, Repr

/-- Embedding of `test_check`: with `test = None` the confirmation gate runs
before `write_new`; a dry run never mutates anything. -/
def test_check_model (test : Option String) (dict_list : List RenameRow)
    (ask : String) : Except PyErr TestOutcome :=
  match test with
  | none =>
    match confirm_write_model dict_list ask with
    | .error e => .error e
    | .ok go => if go then .ok .wroteNew else .ok .skipped
  | some t => if t ≠ "stdout" then .ok (.wroteTest t) else .ok .printedStdout

/-- C10: the confirmation gate samples exactly 5 plan entries; with fewer than
5 entries `random.sample` raises `ValueError` regardless of the interactive
answer, so the gate never reaches the prompt and `write_new` never runs; a
non-dry-run rename therefore proceeds only when the plan has at least 5
entries. -/
theorem c10_confirmation_gate (dict_list : List RenameRow) (ask : String) :
    (dict_list.length < 5 →
      test_check_model none dict_list ask = Except.error PyErr.valueError)
    ∧ (5 ≤ dict_list.length →
      ∃ sample, randomSample dict_list 5 = Except.ok sample ∧ sample.length = 5)
    ∧ (test_check_model none dict_list ask = Except.ok TestOutcome.wroteNew →
      5 ≤ dict_list.length) := by
  refine ⟨?_, ?_, ?_⟩
  · intro hlen
    rw [test_check_model, confirm_write_model, randomSample, if_pos hlen]
  · intro hlen
    refine ⟨dict_list.take 5, ?_, ?_⟩
    · rw [randomSample, if_neg (by omega)]
    · rw [List.length_take]
      omega
  · intro hok
    by_contra hlt
    rw [test_check_model, confirm_write_model, randomSample, if_pos (by omega)] at hok
    cases hok

/-- Concrete plans for the confirmation-gate witness: three entries (below the
sample size) and six entries. -/
def c10small : List RenameRow :=
  [mkRow "g1" "n1.jpg" "o1.jpg", mkRow "g2" "n2.jpg" "o2.jpg",
   mkRow "g3" "n3.jpg" "o3.jpg"]

def c10big : List RenameRow :=
  [mkRow "g1" "n1.jpg" "o1.jpg", mkRow "g2" "n2.jpg" "o2.jpg",
   mkRow "g3" "n3.jpg" "o3.jpg", mkRow "g4" "n4.jpg" "o4.jpg",
   mkRow "g5" "n5.jpg" "o5.jpg", mkRow "g6" "n6.jpg" "o6.jpg"]

theorem c10_confirmation_gate_witness :
    (test_check_model none c10small "y" = Except.error PyErr.valueError)
    ∧ (∃ sample, randomSample c10big 5 = Except.ok sample ∧ sample.length = 5) := by
  exact ⟨(c10_confirmation_gate c10small "y").1 (by decide),
    (c10_confirmation_gate c10big "y").2.1 (by decide)⟩

end PhotoMgmt
